import Mathlib

/-!
# Verification of the morph-server diffing core

Shallow embedding of the snapshot-tracking / change-classification /
patch-generation core of `src/github_bot.py` (class `GitHubAPIBot`;
the same code is duplicated verbatim in `src/morph_server.py`).

Python dictionaries are modelled as association lists (`PyDict`), Python
strings as Lean `String`, and Python `set` results as deduplicated lists
(compared only up to membership, as the code only uses membership,
iteration-with-sort, and emptiness of these sets).
-/

namespace MorphServer

/-- The set of characters Python's `str.splitlines` treats as a line
boundary: `\n`, `\r`, `\v`, `\f`, FS, GS, RS, NEL, LINE SEPARATOR,
PARAGRAPH SEPARATOR (`\r\n` is handled as a unit separately). -/
def isLineBoundary (c : Char) : Bool :=
  c = '\n' ∨ c = '\r' ∨ c = '\x0b' ∨ c = '\x0c' ∨ c = '\x1c' ∨ c = '\x1d' ∨
  c = '\x1e' ∨ c = '\x85' ∨ c = '\u2028' ∨ c = '\u2029'

/-- The characters Python's `str.isspace` accepts, i.e. the set stripped by
`str.rstrip()` with no argument. -/
def pyIsSpace (c : Char) : Bool :=
  c = ' ' ∨ c = '\t' ∨ c = '\n' ∨ c = '\r' ∨ c = '\x0b' ∨ c = '\x0c' ∨ c = '\x1c' ∨
  c = '\x1d' ∨ c = '\x1e' ∨ c = '\x1f' ∨ c = '\x85' ∨ c = '\xa0' ∨ c = '\u1680' ∨
  c = '\u2000' ∨ c = '\u2001' ∨ c = '\u2002' ∨ c = '\u2003' ∨ c = '\u2004' ∨ c = '\u2005' ∨
  c = '\u2006' ∨ c = '\u2007' ∨ c = '\u2008' ∨ c = '\u2009' ∨ c = '\u200a' ∨ c = '\u2028' ∨
  c = '\u2029' ∨ c = '\u202f' ∨ c = '\u205f' ∨ c = '\u3000'

/-- Python `s.rstrip()`: drop trailing whitespace characters. -/
def rstrip (s : String) : String :=
  ⟨(s.data.reverse.dropWhile pyIsSpace).reverse⟩

/-- Worker for `splitlinesKeepends`; `acc` holds the current (reversed)
partial line. -/
def splitlinesAux : List Char → List Char → List (List Char)
  | [], acc => if acc = [] then [] else [acc.reverse]
  | '\r' :: '\n' :: rest, acc =>
    (acc.reverse ++ ['\r', '\n']) :: splitlinesAux rest []
  | c :: rest, acc =>
    if isLineBoundary c then (acc.reverse ++ [c]) :: splitlinesAux rest []
    else splitlinesAux rest (c :: acc)

/-- Python `s.splitlines(keepends=True)`. -/
def splitlinesKeepends (s : String) : List String :=
  (splitlinesAux s.data []).map (fun l => ⟨l⟩)

/-- A Python `Dict[str, str]` as an association list.  All dictionaries
built by the modelled code have pairwise-distinct keys; the operations
below agree with Python's on such lists. -/
abbrev PyDict := List (String × String)

/-- Python `d[k]` / `d.get(k)`: value at the first matching key. -/
def dget (d : PyDict) (k : String) : Option String :=
  (d.find? (fun kv => kv.1 = k)).map Prod.snd

/-- Key list of a dictionary (`d.keys()`), in insertion order. -/
def dkeys (d : PyDict) : List String := d.map Prod.fst

/-- Python `d[k] = v`: update in place if the key exists, else append. -/
def dinsert (d : PyDict) (k v : String) : PyDict :=
  if k ∈ dkeys d then d.map (fun kv => if kv.1 = k then (k, v) else kv)
  else d ++ [(k, v)]

/-- Python `del d[k]` (for a key known present): remove the entry. -/
def derase (d : PyDict) (k : String) : PyDict :=
  d.filter (fun kv => kv.1 ≠ k)

/-! ## The line diff

Modelled from the spec: `generate_patch` calls `difflib.unified_diff`,
which is Python standard-library code not contained in this repository.
Section 4.3 of the spec describes it as "a standard line-level
unified-diff algorithm (longest-common-subsequence based)" run over the
`splitlines(keepends=True)` line lists, with a context window of `n`
unchanged lines (the call uses the default `n = 3`), hunk headers
`@@ -<start>,<len> +<start>,<len> @@`, two leading file-header lines, and
`lineterm` (here `''`) appended to header lines only — content lines are
emitted verbatim with a one-character `' '`/`-`/`+` prefix.  The
definitions below reproduce that algorithm: repeatedly take the longest
matching block (earliest position on ties), derive
replace/delete/insert/equal opcodes from the matching blocks, group them
into hunks keeping `n` lines of context, and render each hunk. -/

/-- Length of the common run of equal lines of `a` starting at `i` and of
`b` starting at `j`, staying below `bhi` in `b`; the fuel argument is
instantiated with `ahi - i`, enforcing the `a`-side bound. -/
def extLenAux (a b : List String) : Nat → Nat → Nat → Nat → Nat
  | _, _, _, 0 => 0
  | i, j, bhi, fuel + 1 =>
    match a[i]?, b[j]? with
    | some x, some y =>
      if j < bhi ∧ x = y then 1 + extLenAux a b (i + 1) (j + 1) bhi fuel
      else 0
    | _, _ => 0

/-- Size of the matching block starting at `(i, j)` within the window
`[·, ahi) × [·, bhi)`. -/
def extLen (a b : List String) (i j ahi bhi : Nat) : Nat :=
  extLenAux a b i j bhi (ahi - i)

/-- One candidate step of `find_longest_match`: replace the current best
block exactly when the block starting at `ij` is strictly longer. -/
def flmStep (a b : List String) (ahi bhi : Nat) (best : Nat × Nat × Nat)
    (ij : Nat × Nat) : Nat × Nat × Nat :=
  let k := extLen a b ij.1 ij.2 ahi bhi
  if best.2.2 < k then (ij.1, ij.2, k) else best

/-- `SequenceMatcher.find_longest_match` (no junk): the longest block of
lines matching between `a[alo:ahi]` and `b[blo:bhi]`; on ties the block
with the smallest `a`-position, then the smallest `b`-position, wins,
and `(alo, blo, 0)` is returned when nothing matches. -/
def find_longest_match (a b : List String) (alo ahi blo bhi : Nat) :
    Nat × Nat × Nat :=
  ((List.range' alo (ahi - alo)).flatMap
      (fun i => (List.range' blo (bhi - blo)).map (fun j => (i, j)))).foldl
    (flmStep a b ahi bhi) (alo, blo, 0)

/-- `SequenceMatcher.get_matching_blocks` main loop: a stack of windows
still to be searched, each contributing its longest match and the two
windows flanking it. -/
def matching_blocksAux (a b : List String) :
    Nat → List (Nat × Nat × Nat × Nat) → List (Nat × Nat × Nat)
  | 0, _ => []
  | _, [] => []
  | fuel + 1, (alo, ahi, blo, bhi) :: queue =>
    let m := find_longest_match a b alo ahi blo bhi
    if m.2.2 ≠ 0 then
      let q1 := if alo < m.1 ∧ blo < m.2.1 then
        (alo, m.1, blo, m.2.1) :: queue else queue
      let q2 := if m.1 + m.2.2 < ahi ∧ m.2.1 + m.2.2 < bhi then
        (m.1 + m.2.2, ahi, m.2.1 + m.2.2, bhi) :: q1 else q1
      m :: matching_blocksAux a b fuel q2
    else matching_blocksAux a b fuel queue

/-- Lexicographic order on matching-block triples (Python tuple order,
used by `matching_blocks.sort()`). -/
def tripleLe (x y : Nat × Nat × Nat) : Prop :=
  x.1 < y.1 ∨ (x.1 = y.1 ∧ (x.2.1 < y.2.1 ∨ (x.2.1 = y.2.1 ∧ x.2.2 ≤ y.2.2)))

instance : DecidableRel tripleLe := fun x y => by
  unfold tripleLe; infer_instance

/-- Collapse adjacent matching blocks (second phase of
`get_matching_blocks`); the accumulator `(i1, j1, k1)` starts at
`(0, 0, 0)`. -/
def mergeAdjacentAux : Nat → Nat → Nat → List (Nat × Nat × Nat) →
    List (Nat × Nat × Nat)
  | i1, j1, k1, [] => if k1 ≠ 0 then [(i1, j1, k1)] else []
  | i1, j1, k1, (i2, j2, k2) :: rest =>
    if i1 + k1 = i2 ∧ j1 + k1 = j2 then mergeAdjacentAux i1 j1 (k1 + k2) rest
    else if k1 ≠ 0 then (i1, j1, k1) :: mergeAdjacentAux i2 j2 k2 rest
    else mergeAdjacentAux i2 j2 k2 rest

/-- `SequenceMatcher.get_matching_blocks`: sorted non-adjacent matching
blocks, terminated by the sentinel `(len(a), len(b), 0)`. -/
def get_matching_blocks (a b : List String) : List (Nat × Nat × Nat) :=
  mergeAdjacentAux 0 0 0 (List.insertionSort tripleLe
    (matching_blocksAux a b (a.length + b.length + 1)
      [(0, a.length, 0, b.length)])) ++
    [(a.length, b.length, 0)]

/-- Opcode tags of `SequenceMatcher.get_opcodes`. -/
inductive Tag where
  | replace
  | delete
  | insert
  | equal
deriving DecidableEq

/-- One opcode `(tag, i1, i2, j1, j2)`: replace `a[i1:i2]` by
`b[j1:j2]` / delete / insert / leave equal. -/
structure Opcode where
  tag : Tag
  i1 : Nat
  i2 : Nat
  j1 : Nat
  j2 : Nat
deriving DecidableEq

/-- `SequenceMatcher.get_opcodes` loop: `i`, `j` track how far `a` and
`b` have been consumed. -/
def get_opcodesAux : Nat → Nat → List (Nat × Nat × Nat) → List Opcode
  | _, _, [] => []
  | i, j, (ai, bj, size) :: rest =>
    (if i < ai ∧ j < bj then [⟨Tag.replace, i, ai, j, bj⟩]
     else if i < ai then [⟨Tag.delete, i, ai, j, bj⟩]
     else if j < bj then [⟨Tag.insert, i, ai, j, bj⟩]
     else []) ++
    (if size ≠ 0 then [⟨Tag.equal, ai, ai + size, bj, bj + size⟩] else []) ++
    get_opcodesAux (ai + size) (bj + size) rest

/-- `SequenceMatcher.get_opcodes`. -/
def get_opcodes (a b : List String) : List Opcode :=
  get_opcodesAux 0 0 (get_matching_blocks a b)

/-- `get_grouped_opcodes`: clamp a leading equal opcode to `n` context
lines. -/
def clampFirst (n : Nat) : List Opcode → List Opcode
  | ⟨Tag.equal, i1, i2, j1, j2⟩ :: rest =>
    ⟨Tag.equal, max i1 (i2 - n), i2, max j1 (j2 - n), j2⟩ :: rest
  | cs => cs

/-- `get_grouped_opcodes`: clamp a trailing equal opcode to `n` context
lines. -/
def clampLast (n : Nat) (cs : List Opcode) : List Opcode :=
  match cs.reverse with
  | ⟨Tag.equal, i1, i2, j1, j2⟩ :: rest =>
    (Opcode.mk Tag.equal i1 (min i2 (i1 + n)) j1 (min j2 (j1 + n)) ::
      rest).reverse
  | _ => cs

/-- Head tag of a group is `equal` (for the final single-equal-group
check of `get_grouped_opcodes`). -/
def headIsEqual : List Opcode → Prop
  | c :: _ => c.tag = Tag.equal
  | [] => False

instance : ∀ g, Decidable (headIsEqual g) := fun g => by
  cases g <;> unfold headIsEqual <;> infer_instance

/-- Main loop of `get_grouped_opcodes`: split the opcode list into hunk
groups at equal runs longer than `nn = 2 * n`, keeping `n` lines of
context on each side; a final group consisting of one equal opcode is
dropped. -/
def groupLoop (nn n : Nat) : List Opcode → List Opcode →
    List (List Opcode)
  | [], group =>
    if group ≠ [] ∧ ¬(group.length = 1 ∧ headIsEqual group) then [group]
    else []
  | ⟨tag, i1, i2, j1, j2⟩ :: rest, group =>
    if tag = Tag.equal ∧ nn < i2 - i1 then
      (group ++ [⟨tag, i1, min i2 (i1 + n), j1, min j2 (j1 + n)⟩]) ::
        groupLoop nn n rest [⟨tag, max i1 (i2 - n), i2, max j1 (j2 - n), j2⟩]
    else groupLoop nn n rest (group ++ [⟨tag, i1, i2, j1, j2⟩])

/-- `SequenceMatcher.get_grouped_opcodes` with context size `n`; an empty
opcode list is replaced by the placeholder `[equal 0 1 0 1]`. -/
def get_grouped_opcodes (a b : List String) (n : Nat) :
    List (List Opcode) :=
  groupLoop (n + n) n
    (clampLast n (clampFirst n
      (if get_opcodes a b = [] then [⟨Tag.equal, 0, 1, 0, 1⟩]
       else get_opcodes a b))) []

/-- `difflib._format_range_unified`. -/
def format_range_unified (start stop : Nat) : String :=
  let beginning := start + 1
  let length := stop - start
  if length = 1 then toString beginning
  else toString (if length = 0 then start else beginning) ++ "," ++
    toString length

/-- Content lines of one opcode: `' '`-, `-`- and `+`-prefixed copies of
the input lines (emitted verbatim, line terminators included). -/
def opcodeLines (a b : List String) (c : Opcode) : List String :=
  match c.tag with
  | Tag.equal => ((a.drop c.i1).take (c.i2 - c.i1)).map (" " ++ ·)
  | Tag.delete => ((a.drop c.i1).take (c.i2 - c.i1)).map ("-" ++ ·)
  | Tag.insert => ((b.drop c.j1).take (c.j2 - c.j1)).map ("+" ++ ·)
  | Tag.replace =>
    ((a.drop c.i1).take (c.i2 - c.i1)).map ("-" ++ ·) ++
    ((b.drop c.j1).take (c.j2 - c.j1)).map ("+" ++ ·)

/-- One hunk of `unified_diff`: `@@`-header plus content lines. -/
def hunkLines (a b : List String) (lineterm : String)
    (group : List Opcode) : List String :=
  match group with
  | [] => []
  | first :: rest =>
    let last := List.getLastD rest first
    ("@@ -" ++ format_range_unified first.i1 last.i2 ++ " +" ++
      format_range_unified first.j1 last.j2 ++ " @@" ++ lineterm) ::
    (first :: rest).flatMap (opcodeLines a b)

/-- `difflib.unified_diff(a, b, n=n, lineterm=lineterm)` with the default
empty file names and dates: two file-header lines (only when at least one
hunk group exists) followed by the rendered hunks. -/
def unified_diff (a b : List String) (n : Nat) (lineterm : String) :
    List String :=
  match get_grouped_opcodes a b n with
  | [] => []
  | groups =>
    ("--- " ++ lineterm) :: ("+++ " ++ lineterm) ::
      groups.flatMap (hunkLines a b lineterm)

/-- The snapshot-holding state of `GitHubAPIBot`: the two tracked
mappings.  (`self.g`, a network client, plays no role in the diffing
core and is omitted; `__init__` sets both dictionaries to `{}`.) -/
structure GitHubAPIBot where
  initial_files : PyDict
  current_files : PyDict
deriving DecidableEq

/-- `GitHubAPIBot.__init__`: both mappings start empty. -/
def initBot : GitHubAPIBot := ⟨[], []⟩

/-- `initialize_tracking`: `initial_files` is set to the freshly fetched
mapping and `current_files` to `initial_files.copy()`.  The fetched
mapping is passed as an argument (fetching is network I/O). -/
def initialize_tracking (files : PyDict) : GitHubAPIBot :=
  ⟨files, files⟩

/-- `track_file_change`: `self.current_files[file_path] = content`. -/
def track_file_change (bot : GitHubAPIBot) (file_path content : String) :
    GitHubAPIBot :=
  { bot with current_files := dinsert bot.current_files file_path content }

/-- `track_file_deletion`: delete `file_path` from `current_files` if
present, otherwise do nothing. -/
def track_file_deletion (bot : GitHubAPIBot) (file_path : String) :
    GitHubAPIBot :=
  if file_path ∈ dkeys bot.current_files then
    { bot with current_files := derase bot.current_files file_path }
  else bot

/-- `get_changes`: returns `(added, modified, deleted)`.  Python returns
`set`s; they are modelled as deduplicated lists (used by callers only up
to membership and sorting). -/
def get_changes (bot : GitHubAPIBot) :
    List String × List String × List String :=
  let initial_keys := (dkeys bot.initial_files).dedup
  let current_keys := (dkeys bot.current_files).dedup
  let added_files := current_keys.filter (fun k => decide (k ∉ initial_keys))
  let deleted_files := initial_keys.filter (fun k => decide (k ∉ current_keys))
  let modified_files := (initial_keys.filter (fun k => decide (k ∈ current_keys))).filter
    (fun k => decide (dget bot.initial_files k ≠ dget bot.current_files k))
  (added_files, modified_files, deleted_files)

/-- Python `sorted` on a set of path strings: ascending lexicographic
order (code-point comparison, as in Python). -/
def pySorted (l : List String) : List String :=
  List.insertionSort (· ≤ ·) l

/-- The patch block emitted by `generate_patch` for one deleted path:
two header lines, every line of the initial content `rstrip`-ped and
`-`-prefixed, and the trailing blank separator line. -/
def deletedBlock (initial_files : PyDict) (file_path : String) :
    List String :=
  ("--- a/" ++ file_path) :: "+++ /dev/null" ::
    (splitlinesKeepends ((dget initial_files file_path).getD "")).map
      (fun line => "-" ++ rstrip line) ++ [""]

/-- The patch block emitted by `generate_patch` for one modified path:
two header lines, the `unified_diff` output with its first two lines
dropped (kept only when the diff has more than two lines), and the
trailing blank separator line. -/
def modifiedBlock (initial_files current_files : PyDict)
    (file_path : String) : List String :=
  let original_lines :=
    splitlinesKeepends ((dget initial_files file_path).getD "")
  let new_lines :=
    splitlinesKeepends ((dget current_files file_path).getD "")
  let diff := unified_diff original_lines new_lines 3 ""
  ("--- a/" ++ file_path) :: ("+++ b/" ++ file_path) ::
    (if 2 < diff.length then diff.drop 2 else []) ++ [""]

/-- The patch block emitted by `generate_patch` for one added path. -/
def addedBlock (current_files : PyDict) (file_path : String) :
    List String :=
  "--- /dev/null" :: ("+++ b/" ++ file_path) ::
    (splitlinesKeepends ((dget current_files file_path).getD "")).map
      (fun line => "+" ++ rstrip line) ++ [""]

/-- The `patch_lines` list built by `generate_patch`: all deleted paths
in sorted order, then all modified paths, then all added paths, one
block each. -/
def patchLines (bot : GitHubAPIBot) : List String :=
  let changes := get_changes bot
  (pySorted changes.2.2).flatMap (deletedBlock bot.initial_files) ++
  (pySorted changes.2.1).flatMap
    (modifiedBlock bot.initial_files bot.current_files) ++
  (pySorted changes.1).flatMap (addedBlock bot.current_files)

/-- `generate_patch`: `"\n".join(patch_lines)`. -/
def generate_patch (bot : GitHubAPIBot) : String :=
  String.intercalate "\n" (patchLines bot)

/-- The summary mapping of `get_changed_files_summary`, with its three
fixed keys as fields. -/
structure Summary where
  added : PyDict
  modified : PyDict
  deleted : PyDict
deriving DecidableEq

/-- `get_changed_files_summary`: added and modified paths map to the
current content, deleted paths to the initial content. -/
def get_changed_files_summary (bot : GitHubAPIBot) : Summary :=
  let changes := get_changes bot
  { added := changes.1.map
      (fun p => (p, (dget bot.current_files p).getD ""))
    modified := changes.2.1.map
      (fun p => (p, (dget bot.current_files p).getD ""))
    deleted := changes.2.2.map
      (fun p => (p, (dget bot.initial_files p).getD "")) }

/-- A mutation of the tracking session: one `track_file_change` or
`track_file_deletion` call. -/
inductive TrackOp where
  | change (file_path content : String)
  | deletion (file_path : String)

/-- Apply one tracking mutation to the bot state. -/
def applyOp (bot : GitHubAPIBot) : TrackOp → GitHubAPIBot
  | TrackOp.change file_path content =>
    track_file_change bot file_path content
  | TrackOp.deletion file_path => track_file_deletion bot file_path

/-- Apply a sequence of tracking mutations in order. -/
def applyOps (bot : GitHubAPIBot) (ops : List TrackOp) : GitHubAPIBot :=
  ops.foldl applyOp bot

/-! ## Theorems -/

theorem mem_dkeys_iff_isSome (d : PyDict) (k : String) :
    k ∈ dkeys d ↔ (dget d k).isSome := by
  induction d with
  | nil => simp [dkeys, dget]
  | cons kv rest ih =>
    simp only [dkeys, dget] at ih ⊢
    by_cases h : kv.1 = k
    · simp [List.find?_cons, h]
    · simp [List.find?_cons, h, ih]
      exact fun hk => absurd hk.symm h

theorem extLenAux_le (a b : List String) (fuel : Nat) :
    ∀ i j bhi, extLenAux a b i j bhi fuel ≤ fuel := by
  induction fuel with
  | zero => intro i j bhi; exact Nat.le_refl 0
  | succ f ih =>
    intro i j bhi
    rw [extLenAux]
    cases a[i]? with
    | none => exact Nat.zero_le _
    | some x =>
      cases b[j]? with
      | none => exact Nat.zero_le _
      | some y =>
        dsimp only
        by_cases hc : j < bhi ∧ x = y
        · rw [if_pos hc]
          have := ih (i + 1) (j + 1) bhi
          omega
        · rw [if_neg hc]
          exact Nat.zero_le _

theorem extLenAux_self (a : List String) (fuel : Nat) :
    ∀ i, i + fuel = a.length → extLenAux a a i i a.length fuel = fuel := by
  induction fuel with
  | zero => intro i _; rfl
  | succ f ih =>
    intro i h
    have hi : i < a.length := by omega
    rw [extLenAux, List.getElem?_eq_getElem hi]
    dsimp only
    rw [if_pos (And.intro hi rfl), ih (i + 1) (by omega)]
    omega

theorem extLen_le (a b : List String) (i j ahi bhi : Nat) :
    extLen a b i j ahi bhi ≤ ahi - i :=
  extLenAux_le a b (ahi - i) i j bhi

theorem extLen_self (a : List String) :
    extLen a a 0 0 a.length a.length = a.length :=
  extLenAux_self a (a.length - 0) 0 (by omega)

theorem foldl_flmStep_keep (a b : List String) (ahi bhi : Nat)
    (l : List (Nat × Nat)) :
    ∀ best : Nat × Nat × Nat,
      (∀ ij ∈ l, extLen a b ij.1 ij.2 ahi bhi ≤ best.2.2) →
      l.foldl (flmStep a b ahi bhi) best = best := by
  induction l with
  | nil => intro best _; rfl
  | cons x xs ih =>
    intro best h
    rw [List.foldl_cons]
    have hx : flmStep a b ahi bhi best x = best := by
      rw [flmStep]
      exact if_neg (Nat.not_lt.mpr (h x (List.mem_cons_self x xs)))
    rw [hx]
    exact ih best (fun ij hij => h ij (List.mem_cons_of_mem x hij))

theorem find_longest_match_self (a : List String) (h : a ≠ []) :
    find_longest_match a a 0 a.length 0 a.length = (0, 0, a.length) := by
  obtain ⟨l, hl⟩ : ∃ l, a.length = l + 1 := by
    cases a with
    | nil => exact absurd rfl h
    | cons x xs => exact ⟨xs.length, rfl⟩
  rw [find_longest_match, Nat.sub_zero, hl]
  simp only [List.range'_succ, List.flatMap_cons, List.map_cons,
    List.cons_append, List.foldl_cons]
  have hext : extLen a a 0 0 (l + 1) (l + 1) = l + 1 := hl ▸ extLen_self a
  have hstep : flmStep a a (l + 1) (l + 1) (0, 0, 0) (0, 0) =
      (0, 0, l + 1) := by
    rw [flmStep]
    dsimp only
    rw [hext, if_pos (by omega)]
  rw [hstep]
  exact foldl_flmStep_keep a a (l + 1) (l + 1) _ (0, 0, l + 1)
    (fun ij _ =>
      (Nat.le_trans (extLen_le a a ij.1 ij.2 (l + 1) (l + 1))
        (Nat.sub_le (l + 1) ij.1) :
        extLen a a ij.1 ij.2 (l + 1) (l + 1) ≤ l + 1))

theorem matching_blocksAux_nil (a b : List String) (fuel : Nat) :
    matching_blocksAux a b fuel [] = [] := by
  cases fuel <;> rfl

theorem get_matching_blocks_self (a : List String) :
    get_matching_blocks a a =
      if a.length = 0 then [(0, 0, 0)]
      else [(0, 0, a.length), (a.length, a.length, 0)] := by
  by_cases ha : a = []
  · subst ha; rfl
  · have hlen : a.length ≠ 0 := by
      cases a with
      | nil => exact absurd rfl ha
      | cons x xs => simp
    rw [if_neg hlen, get_matching_blocks]
    have haux : matching_blocksAux a a (a.length + a.length + 1)
        [(0, a.length, 0, a.length)] = [(0, 0, a.length)] := by
      rw [matching_blocksAux, find_longest_match_self a ha]
      simp only
      rw [if_pos hlen, if_neg (by omega), if_neg (by omega),
        matching_blocksAux_nil]
    rw [haux]
    have hsort : List.insertionSort tripleLe [(0, 0, a.length)] =
        [(0, 0, a.length)] := rfl
    rw [hsort, mergeAdjacentAux, if_pos (by omega), mergeAdjacentAux]
    simp [hlen]

theorem get_opcodes_self (a : List String) :
    get_opcodes a a =
      if a.length = 0 then []
      else [⟨Tag.equal, 0, a.length, 0, a.length⟩] := by
  rw [get_opcodes, get_matching_blocks_self]
  by_cases hlen : a.length = 0
  · rw [if_pos hlen, if_pos hlen]
    simp [get_opcodesAux]
  · rw [if_neg hlen, if_neg hlen]
    simp [get_opcodesAux, hlen]

theorem clampFirst_single_equal (c i1 i2 j1 j2 : Nat) :
    clampFirst c [⟨Tag.equal, i1, i2, j1, j2⟩] =
      [⟨Tag.equal, max i1 (i2 - c), i2, max j1 (j2 - c), j2⟩] := rfl

theorem clampLast_single_equal (c i1 i2 j1 j2 : Nat) :
    clampLast c [⟨Tag.equal, i1, i2, j1, j2⟩] =
      [⟨Tag.equal, i1, min i2 (i1 + c), j1, min j2 (j1 + c)⟩] := rfl

theorem groupLoop_single_equal (nn c i1 i2 j1 j2 : Nat)
    (h : ¬nn < i2 - i1) :
    groupLoop nn c [⟨Tag.equal, i1, i2, j1, j2⟩] [] = [] := by
  rw [groupLoop, if_neg (by simp [h]), groupLoop,
    if_neg (by simp [headIsEqual])]

theorem grouped_opcodes_self (a : List String) (n : Nat) :
    get_grouped_opcodes a a n = [] := by
  rw [get_grouped_opcodes, get_opcodes_self]
  by_cases hlen : a.length = 0
  · rw [if_pos hlen, if_pos rfl, clampFirst_single_equal,
      clampLast_single_equal,
      groupLoop_single_equal (n + n) n _ _ _ _ (by omega)]
  · rw [if_neg hlen, if_neg (by simp), clampFirst_single_equal,
      clampLast_single_equal,
      groupLoop_single_equal (n + n) n _ _ _ _ (by omega)]

theorem unified_diff_self (a : List String) (n : Nat) (lineterm : String) :
    unified_diff a a n lineterm = [] := by
  rw [unified_diff, grouped_opcodes_self]

theorem unified_diff_take_two (a b : List String) (n : Nat)
    (lineterm : String) (h : unified_diff a b n lineterm ≠ []) :
    (unified_diff a b n lineterm).take 2 =
      ["--- " ++ lineterm, "+++ " ++ lineterm] := by
  rw [unified_diff] at h ⊢
  cases hg : get_grouped_opcodes a b n with
  | nil => rw [hg] at h; exact absurd rfl h
  | cons g gs => rfl


/-- C1: for every pair of tracked mappings, `get_changes` returns
`added = keys(after) − keys(before)`, `deleted = keys(before) − keys(after)`
and `modified = { p ∈ keys(before) ∩ keys(after) : before[p] ≠ after[p] }`;
the three sets are pairwise disjoint and, together with the unchanged
common paths, cover `keys(before) ∪ keys(after)`. -/
theorem get_changes_classification (bot : GitHubAPIBot) (p : String) :
    (p ∈ (get_changes bot).1 ↔
      p ∈ dkeys bot.current_files ∧ p ∉ dkeys bot.initial_files) ∧
    (p ∈ (get_changes bot).2.2 ↔
      p ∈ dkeys bot.initial_files ∧ p ∉ dkeys bot.current_files) ∧
    (p ∈ (get_changes bot).2.1 ↔
      (p ∈ dkeys bot.initial_files ∧ p ∈ dkeys bot.current_files) ∧
        dget bot.initial_files p ≠ dget bot.current_files p) ∧
    ¬(p ∈ (get_changes bot).1 ∧ p ∈ (get_changes bot).2.1) ∧
    ¬(p ∈ (get_changes bot).1 ∧ p ∈ (get_changes bot).2.2) ∧
    ¬(p ∈ (get_changes bot).2.1 ∧ p ∈ (get_changes bot).2.2) ∧
    ((p ∈ dkeys bot.initial_files ∨ p ∈ dkeys bot.current_files) ↔
      p ∈ (get_changes bot).1 ∨ p ∈ (get_changes bot).2.1 ∨
      p ∈ (get_changes bot).2.2 ∨
      (p ∈ dkeys bot.initial_files ∧ p ∈ dkeys bot.current_files ∧
        dget bot.initial_files p = dget bot.current_files p)) := by
  have hadd : p ∈ (get_changes bot).1 ↔
      p ∈ dkeys bot.current_files ∧ p ∉ dkeys bot.initial_files := by
    simp [get_changes, List.mem_filter]
  have hdel : p ∈ (get_changes bot).2.2 ↔
      p ∈ dkeys bot.initial_files ∧ p ∉ dkeys bot.current_files := by
    simp [get_changes, List.mem_filter]
  have hmod : p ∈ (get_changes bot).2.1 ↔
      (p ∈ dkeys bot.initial_files ∧ p ∈ dkeys bot.current_files) ∧
        dget bot.initial_files p ≠ dget bot.current_files p := by
    simp [get_changes, List.mem_filter, and_assoc]
    tauto
  refine ⟨hadd, hdel, hmod, ?_, ?_, ?_, ?_⟩
  · rw [hadd, hmod]; tauto
  · rw [hadd, hdel]; tauto
  · rw [hmod, hdel]; tauto
  · rw [hadd, hmod, hdel]
    by_cases h : dget bot.initial_files p = dget bot.current_files p <;> tauto

/-- C1 witness: the classification instantiated on spec Scenario 1. -/
theorem get_changes_classification_example :
    ("b.txt" ∈ (get_changes ⟨[("a.txt", "hello\n")],
        [("a.txt", "hello\nworld\n"), ("b.txt", "new\n")]⟩).1 ↔
      "b.txt" ∈ dkeys [("a.txt", "hello\nworld\n"), ("b.txt", "new\n")] ∧
      "b.txt" ∉ dkeys [("a.txt", "hello\n")]) :=
  (get_changes_classification
    ⟨[("a.txt", "hello\n")],
      [("a.txt", "hello\nworld\n"), ("b.txt", "new\n")]⟩ "b.txt").1

/-- C4: the block rendered for a modified path is the two synthesized
header lines followed by the context-3 unified diff of the two contents
with the diff's own two file-header lines discarded (they are exactly
`"--- "` and `"+++ "`), plus the blank separator; on an equal-content
call the diff is empty and nothing beyond the two header lines (and the
separator) is emitted, without failing. -/
theorem modified_block_renders_diff (initial_files current_files : PyDict)
    (p : String) (a b : List String) :
    modifiedBlock initial_files current_files p =
      ("--- a/" ++ p) :: ("+++ b/" ++ p) ::
        ((if 2 < (unified_diff
              (splitlinesKeepends ((dget initial_files p).getD ""))
              (splitlinesKeepends ((dget current_files p).getD ""))
              3 "").length
          then (unified_diff
              (splitlinesKeepends ((dget initial_files p).getD ""))
              (splitlinesKeepends ((dget current_files p).getD ""))
              3 "").drop 2
          else []) ++ [""]) ∧
    unified_diff a a 3 "" = [] ∧
    (dget initial_files p = dget current_files p →
      modifiedBlock initial_files current_files p =
        ["--- a/" ++ p, "+++ b/" ++ p, ""]) ∧
    (unified_diff a b 3 "" ≠ [] →
      (unified_diff a b 3 "").take 2 = ["--- ", "+++ "]) := by
  refine ⟨rfl, unified_diff_self a 3 "", ?_, ?_⟩
  · intro h
    simp [modifiedBlock, h, unified_diff_self]
  · intro h
    have := unified_diff_take_two a b 3 "" h
    simpa using this

/-- C4 witness: an equal-content call emits only the header lines, and a
genuinely differing pair has the two discardable file-header lines. -/
theorem modified_block_renders_diff_example :
    (dget [("f", "x\n")] "f" = dget [("f", "x\n")] "f" ∧
      modifiedBlock [("f", "x\n")] [("f", "x\n")] "f" =
        ["--- a/f", "+++ b/f", ""]) ∧
    (unified_diff ["x\n"] ["y\n"] 3 "" ≠ [] ∧
      (unified_diff ["x\n"] ["y\n"] 3 "").take 2 = ["--- ", "+++ "]) :=
  ⟨⟨rfl, (modified_block_renders_diff [("f", "x\n")] [("f", "x\n")] "f"
      ["x\n"] ["y\n"]).2.2.1 rfl⟩,
   ⟨by decide, (modified_block_renders_diff [("f", "x\n")] [("f", "x\n")]
      "f" ["x\n"] ["y\n"]).2.2.2 (by decide)⟩⟩

/-- C5: when the two snapshots agree on every lookup (same keys, same
content), `generate_patch` returns the empty string and the summary has
all three categories empty; no error is possible (the operations are
total). -/
theorem empty_diff_law (bot : GitHubAPIBot)
    (h : ∀ q, dget bot.initial_files q = dget bot.current_files q) :
    generate_patch bot = "" ∧
      (get_changed_files_summary bot).added = [] ∧
      (get_changed_files_summary bot).modified = [] ∧
      (get_changed_files_summary bot).deleted = [] := by
  have hkeys : ∀ q, q ∈ dkeys bot.initial_files ↔
      q ∈ dkeys bot.current_files := by
    intro q
    rw [mem_dkeys_iff_isSome, mem_dkeys_iff_isSome, h q]
  have hadd : (get_changes bot).1 = [] := by
    simp only [get_changes]
    rw [List.filter_eq_nil_iff]
    intro q hq
    simp only [List.mem_dedup] at hq
    simp [List.mem_dedup, (hkeys q).mpr hq]
  have hdel : (get_changes bot).2.2 = [] := by
    simp only [get_changes]
    rw [List.filter_eq_nil_iff]
    intro q hq
    simp only [List.mem_dedup] at hq
    simp [List.mem_dedup, (hkeys q).mp hq]
  have hmod : (get_changes bot).2.1 = [] := by
    simp only [get_changes]
    rw [List.filter_eq_nil_iff]
    intro q _
    simp [h q]
  refine ⟨?_, ?_, ?_, ?_⟩
  · simp only [generate_patch, patchLines, hadd, hdel, hmod]
    rfl
  · simp only [get_changed_files_summary, hadd]
    rfl
  · simp only [get_changed_files_summary, hmod]
    rfl
  · simp only [get_changed_files_summary, hdel]
    rfl

/-- C5 witness: a concrete unchanged snapshot pair yields the empty patch
and the empty summary. -/
theorem empty_diff_law_example :
    generate_patch ⟨[("a.txt", "hello\n")], [("a.txt", "hello\n")]⟩ = "" ∧
      (get_changed_files_summary
        ⟨[("a.txt", "hello\n")], [("a.txt", "hello\n")]⟩).added = [] ∧
      (get_changed_files_summary
        ⟨[("a.txt", "hello\n")], [("a.txt", "hello\n")]⟩).modified = [] ∧
      (get_changed_files_summary
        ⟨[("a.txt", "hello\n")], [("a.txt", "hello\n")]⟩).deleted = [] :=
  empty_diff_law ⟨[("a.txt", "hello\n")], [("a.txt", "hello\n")]⟩
    (fun _ => rfl)

/-- C6: a path whose content is the binary sentinel `"[Binary file]"` in
both snapshots is classified as unchanged — it is in none of `added`,
`modified`, `deleted` — even though the underlying bytes may differ. -/
theorem binary_sentinel_unchanged (bot : GitHubAPIBot) (p : String)
    (h1 : dget bot.initial_files p = some "[Binary file]")
    (h2 : dget bot.current_files p = some "[Binary file]") :
    p ∉ (get_changes bot).1 ∧ p ∉ (get_changes bot).2.1 ∧
      p ∉ (get_changes bot).2.2 := by
  have hi : p ∈ dkeys bot.initial_files :=
    (mem_dkeys_iff_isSome _ _).mpr (by rw [h1]; rfl)
  have hc : p ∈ dkeys bot.current_files :=
    (mem_dkeys_iff_isSome _ _).mpr (by rw [h2]; rfl)
  refine ⟨?_, ?_, ?_⟩ <;>
    simp [get_changes, List.mem_filter, List.mem_dedup, hi, hc, h1, h2]

/-- C6 witness: a concrete binary-sentinel pair is reported unchanged. -/
theorem binary_sentinel_unchanged_example :
    dget [("img.png", "[Binary file]")] "img.png" = some "[Binary file]" ∧
    ("img.png" ∉ (get_changes ⟨[("img.png", "[Binary file]")],
        [("img.png", "[Binary file]")]⟩).1 ∧
      "img.png" ∉ (get_changes ⟨[("img.png", "[Binary file]")],
        [("img.png", "[Binary file]")]⟩).2.1 ∧
      "img.png" ∉ (get_changes ⟨[("img.png", "[Binary file]")],
        [("img.png", "[Binary file]")]⟩).2.2) :=
  ⟨rfl, binary_sentinel_unchanged
    ⟨[("img.png", "[Binary file]")], [("img.png", "[Binary file]")]⟩
    "img.png" rfl rfl⟩

theorem applyOp_initial_files (bot : GitHubAPIBot) (op : TrackOp) :
    (applyOp bot op).initial_files = bot.initial_files := by
  cases op with
  | change file_path content => rfl
  | deletion file_path =>
    rw [applyOp, track_file_deletion]
    split <;> rfl

theorem applyOps_initial_files (ops : List TrackOp) :
    ∀ bot : GitHubAPIBot, (applyOps bot ops).initial_files =
      bot.initial_files := by
  induction ops with
  | nil => intro bot; rfl
  | cons op rest ih =>
    intro bot
    rw [applyOps, List.foldl_cons]
    exact (ih (applyOp bot op)).trans (applyOp_initial_files bot op)

/-- C7: `initialize_tracking` gives the before and after snapshots the
same mapping value (two copies in Python, hence value-equal and
unaliased), and no sequence of `track_file_change` /
`track_file_deletion` calls ever modifies the before snapshot. -/
theorem initialize_tracking_frame (files : PyDict) (ops : List TrackOp) :
    (initialize_tracking files).initial_files = files ∧
    (initialize_tracking files).current_files = files ∧
    (applyOps (initialize_tracking files) ops).initial_files = files :=
  ⟨rfl, rfl, applyOps_initial_files ops (initialize_tracking files)⟩

/-- C7 witness: a concrete mutation sequence leaves the before snapshot
untouched. -/
theorem initialize_tracking_frame_example :
    (applyOps (initialize_tracking [("a.txt", "1\n")])
      [TrackOp.change "a.txt" "2\n", TrackOp.change "b.txt" "3\n",
        TrackOp.deletion "a.txt", TrackOp.deletion "zz"]).initial_files =
      [("a.txt", "1\n")] :=
  (initialize_tracking_frame [("a.txt", "1\n")]
    [TrackOp.change "a.txt" "2\n", TrackOp.change "b.txt" "3\n",
      TrackOp.deletion "a.txt", TrackOp.deletion "zz"]).2.2

theorem not_mem_dkeys_derase (d : PyDict) (p : String) :
    p ∉ dkeys (derase d p) := by
  simp only [dkeys, derase, List.mem_map, List.mem_filter]
  rintro ⟨kv, ⟨-, hne⟩, rfl⟩
  simp at hne

theorem mem_dkeys_dinsert (d : PyDict) (p c : String) :
    p ∈ dkeys (dinsert d p c) := by
  rw [dinsert]
  split
  · next hmem =>
    obtain ⟨kv, hkv, hfst⟩ := List.mem_map.mp hmem
    rw [dkeys]
    exact List.mem_map.mpr ⟨(p, c),
      List.mem_map.mpr ⟨kv, hkv, by simp [hfst]⟩, rfl⟩
  · simp [dkeys]

theorem map_update_absent (d : PyDict) (p c : String)
    (hd : p ∉ dkeys d) :
    d.map (fun kv => if kv.1 = p then (p, c) else kv) = d := by
  conv_rhs => rw [← List.map_id d]
  refine List.map_congr_left (fun kv hkv => ?_)
  have hne : kv.1 ≠ p := by
    intro he
    exact hd (by
      rw [dkeys]
      exact List.mem_map.mpr ⟨kv, hkv, he⟩)
  simp [hne]

theorem dinsert_idem (d : PyDict) (p c : String) :
    dinsert (dinsert d p c) p c = dinsert d p c := by
  by_cases hd : p ∈ dkeys d
  · have hin : dinsert d p c =
        d.map (fun kv => if kv.1 = p then (p, c) else kv) := by
      rw [dinsert, if_pos hd]
    have hmem : p ∈ dkeys
        (d.map (fun kv => if kv.1 = p then (p, c) else kv)) :=
      hin ▸ mem_dkeys_dinsert d p c
    rw [hin, dinsert, if_pos hmem, List.map_map]
    refine List.map_congr_left (fun kv _ => ?_)
    by_cases hkv : kv.1 = p <;> simp [Function.comp, hkv]
  · have hin : dinsert d p c = d ++ [(p, c)] := by
      rw [dinsert, if_neg hd]
    rw [hin, dinsert, if_pos (by rw [dkeys]; simp), List.map_append,
      map_update_absent d p c hd]
    simp

/-- C8: `track_file_deletion` is idempotent and a no-op (raising nothing)
on an absent path; `track_file_change` with the same content twice
equals a single call. -/
theorem track_mutation_idempotent (bot : GitHubAPIBot) (p c : String) :
    track_file_deletion (track_file_deletion bot p) p =
      track_file_deletion bot p ∧
    (p ∉ dkeys bot.current_files → track_file_deletion bot p = bot) ∧
    track_file_change (track_file_change bot p c) p c =
      track_file_change bot p c := by
  refine ⟨?_, ?_, ?_⟩
  · by_cases h : p ∈ dkeys bot.current_files
    · have h1 : track_file_deletion bot p =
          { bot with current_files := derase bot.current_files p } := by
        rw [track_file_deletion, if_pos h]
      rw [h1, track_file_deletion,
        if_neg (not_mem_dkeys_derase bot.current_files p)]
    · have h1 : track_file_deletion bot p = bot := by
        rw [track_file_deletion, if_neg h]
      rw [h1]
      exact h1
  · intro h
    rw [track_file_deletion, if_neg h]
  · exact congrArg (fun dd => GitHubAPIBot.mk bot.initial_files dd)
      (dinsert_idem bot.current_files p c)

/-- C8 witness: the idempotence laws at a concrete store, path and
content, with the deletion of the absent path `"b"` a no-op. -/
theorem track_mutation_idempotent_example :
    ("b" ∉ dkeys ([("a", "1")] : PyDict)) ∧
    (track_file_deletion (track_file_deletion ⟨[], [("a", "1")]⟩ "b") "b" =
      track_file_deletion ⟨[], [("a", "1")]⟩ "b" ∧
    track_file_deletion (⟨[], [("a", "1")]⟩ : GitHubAPIBot) "b" =
      ⟨[], [("a", "1")]⟩ ∧
    track_file_change (track_file_change ⟨[], [("a", "1")]⟩ "b" "2") "b" "2" =
      track_file_change ⟨[], [("a", "1")]⟩ "b" "2") := by
  have h := track_mutation_idempotent ⟨[], [("a", "1")]⟩ "b" "2"
  exact ⟨by decide, h.1, h.2.1 (by decide), h.2.2⟩

/-- C9 counterexample: the claim says classification/assembly on a
missing mapping fails fast with a descriptive error; in the code
`__init__` represents the absent snapshots as empty dictionaries, and on
that state `get_changes` returns the generic empty classification,
`generate_patch` the empty patch and `get_changed_files_summary` the
empty summary — no error of any kind is raised. -/
theorem uninitialized_bot_empty_results :
    get_changes initBot = ([], [], []) ∧ generate_patch initBot = "" ∧
      get_changed_files_summary initBot = ⟨[], [], []⟩ :=
  ⟨rfl, rfl, rfl⟩

/-- C9 amended: missing/never-supplied snapshots are represented as empty
mappings (the `__init__` defaults); on them `get_changes` and
`generate_patch` do not fail — they return the generic empty
classification, empty patch text and empty summary. -/
theorem empty_mappings_empty_results (bot : GitHubAPIBot)
    (h1 : bot.initial_files = []) (h2 : bot.current_files = []) :
    get_changes bot = ([], [], []) ∧ generate_patch bot = "" ∧
      get_changed_files_summary bot = ⟨[], [], []⟩ := by
  cases bot with
  | mk i c =>
    simp only at h1 h2
    subst h1
    subst h2
    exact ⟨rfl, rfl, rfl⟩

/-- C9 amended witness: the freshly constructed bot state. -/
theorem empty_mappings_empty_results_example :
    get_changes ⟨[], []⟩ = ([], [], []) ∧
      generate_patch ⟨[], []⟩ = "" ∧
      get_changed_files_summary ⟨[], []⟩ = ⟨[], [], []⟩ :=
  empty_mappings_empty_results ⟨[], []⟩ rfl rfl

/-- C10: an added or deleted path carrying the binary sentinel content
`"[Binary file]"` is rendered with the sentinel emitted literally as the
single `+`/`-` content line of its block, and that literal line appears
in the generated `patch_lines`. -/
theorem binary_sentinel_rendered (bot : GitHubAPIBot) (p : String) :
    (dget bot.current_files p = some "[Binary file]" →
      addedBlock bot.current_files p =
        ["--- /dev/null", "+++ b/" ++ p, "+[Binary file]", ""] ∧
      (p ∈ (get_changes bot).1 → "+[Binary file]" ∈ patchLines bot)) ∧
    (dget bot.initial_files p = some "[Binary file]" →
      deletedBlock bot.initial_files p =
        ["--- a/" ++ p, "+++ /dev/null", "-[Binary file]", ""] ∧
      (p ∈ (get_changes bot).2.2 → "-[Binary file]" ∈ patchLines bot)) := by
  constructor
  · intro h
    have hblock : addedBlock bot.current_files p =
        ["--- /dev/null", "+++ b/" ++ p, "+[Binary file]", ""] := by
      rw [addedBlock, h]
      rfl
    refine ⟨hblock, fun hp => ?_⟩
    have hps : p ∈ pySorted (get_changes bot).1 :=
      ((List.perm_insertionSort (· ≤ ·) (get_changes bot).1).mem_iff).mpr hp
    have hline : "+[Binary file]" ∈
        (pySorted (get_changes bot).1).flatMap
          (addedBlock bot.current_files) :=
      List.mem_flatMap.mpr ⟨p, hps, by rw [hblock]; simp⟩
    simp only [patchLines]
    exact List.mem_append_right _ hline
  · intro h
    have hblock : deletedBlock bot.initial_files p =
        ["--- a/" ++ p, "+++ /dev/null", "-[Binary file]", ""] := by
      rw [deletedBlock, h]
      rfl
    refine ⟨hblock, fun hp => ?_⟩
    have hps : p ∈ pySorted (get_changes bot).2.2 :=
      ((List.perm_insertionSort (· ≤ ·) (get_changes bot).2.2).mem_iff).mpr hp
    have hline : "-[Binary file]" ∈
        (pySorted (get_changes bot).2.2).flatMap
          (deletedBlock bot.initial_files) :=
      List.mem_flatMap.mpr ⟨p, hps, by rw [hblock]; simp⟩
    simp only [patchLines]
    exact List.mem_append_left _ (List.mem_append_left _ hline)

/-- C10 witness: one deleted and one added binary-sentinel file, with
both literal sentinel lines present in the patch lines. -/
theorem binary_sentinel_rendered_example :
    (dget [("new.png", "[Binary file]")] "new.png" = some "[Binary file]" ∧
      "new.png" ∈ (get_changes ⟨[("old.png", "[Binary file]")],
        [("new.png", "[Binary file]")]⟩).1 ∧
      "+[Binary file]" ∈ patchLines ⟨[("old.png", "[Binary file]")],
        [("new.png", "[Binary file]")]⟩) ∧
    (dget [("old.png", "[Binary file]")] "old.png" = some "[Binary file]" ∧
      "old.png" ∈ (get_changes ⟨[("old.png", "[Binary file]")],
        [("new.png", "[Binary file]")]⟩).2.2 ∧
      "-[Binary file]" ∈ patchLines ⟨[("old.png", "[Binary file]")],
        [("new.png", "[Binary file]")]⟩) := by
  have h := binary_sentinel_rendered
    ⟨[("old.png", "[Binary file]")], [("new.png", "[Binary file]")]⟩
  exact ⟨⟨rfl, by decide, ((h "new.png").1 rfl).2 (by decide)⟩,
    ⟨rfl, by decide, ((h "old.png").2 rfl).2 (by decide)⟩⟩

theorem pySorted_sorted_lt {l : List String} (hl : l.Nodup) :
    List.Sorted (· < ·) (pySorted l) := by
  have hs : List.Sorted (· ≤ ·) (pySorted l) :=
    List.sorted_insertionSort (· ≤ ·) l
  have hn : (pySorted l).Nodup :=
    ((List.perm_insertionSort (· ≤ ·) l).nodup_iff).mpr hl
  exact (hs.and hn).imp (fun hab => lt_of_le_of_ne hab.1 hab.2)

theorem changes_nodup (bot : GitHubAPIBot) :
    (get_changes bot).1.Nodup ∧ (get_changes bot).2.1.Nodup ∧
      (get_changes bot).2.2.Nodup := by
  simp only [get_changes]
  exact ⟨(List.nodup_dedup _).filter _,
    ((List.nodup_dedup _).filter _).filter _,
    (List.nodup_dedup _).filter _⟩

theorem getLast?_two_cons_append_blank (x y : String)
    (mid : List String) :
    (x :: y :: (mid ++ [""])).getLast? = some "" := by
  rw [show x :: y :: (mid ++ [""]) = (x :: y :: mid) ++ [""] by simp,
    List.getLast?_concat]

/-- C2 counterexample: for the modified file `a.txt` (`"x\ny\n"` to
`"z\ny\n"`) the hunk content line `"-x\n"` — with an embedded newline —
is an element of `patch_lines`, contradicting the claim's parenthetical
that no line of the patch body contains an embedded line terminator
(the diff receives keepends-split lines and `lineterm=''` strips
terminators from header lines only). -/
theorem patch_line_embedded_newline :
    "-x\n" ∈ patchLines ⟨[("a.txt", "x\ny\n")], [("a.txt", "z\ny\n")]⟩ ∧
    '\n' ∈ ("-x\n" : String).data := by
  exact ⟨by decide, by decide⟩

/-- C2 amended: the patch is assembled from per-file blocks in the order
deleted, modified, added, each category sorted in strict lexicographic
order; every block ends with exactly one blank separator line; the
finished patch joins the lines with a single newline between consecutive
elements.  (Unlike the original claim, lines of modified-file hunk
bodies may themselves contain embedded line terminators, as the
counterexample shows.) -/
theorem generate_patch_structure (bot : GitHubAPIBot) :
    patchLines bot =
      (pySorted (get_changes bot).2.2).flatMap
        (deletedBlock bot.initial_files) ++
      (pySorted (get_changes bot).2.1).flatMap
        (modifiedBlock bot.initial_files bot.current_files) ++
      (pySorted (get_changes bot).1).flatMap
        (addedBlock bot.current_files) ∧
    List.Sorted (· < ·) (pySorted (get_changes bot).2.2) ∧
    List.Sorted (· < ·) (pySorted (get_changes bot).2.1) ∧
    List.Sorted (· < ·) (pySorted (get_changes bot).1) ∧
    (∀ d q, (deletedBlock d q).getLast? = some "") ∧
    (∀ d e q, (modifiedBlock d e q).getLast? = some "") ∧
    (∀ d q, (addedBlock d q).getLast? = some "") ∧
    generate_patch bot = String.intercalate "\n" (patchLines bot) := by
  obtain ⟨ha, hm, hd⟩ := changes_nodup bot
  refine ⟨rfl, pySorted_sorted_lt hd, pySorted_sorted_lt hm,
    pySorted_sorted_lt ha, ?_, ?_, ?_, rfl⟩
  · intro d q
    exact getLast?_two_cons_append_blank _ _ _
  · intro d e q
    exact getLast?_two_cons_append_blank _ _ _
  · intro d q
    exact getLast?_two_cons_append_blank _ _ _

/-- C2 amended witness: the structure at a concrete two-file store. -/
theorem generate_patch_structure_example :
    List.Sorted (· < ·) (pySorted (get_changes
      ⟨[("b.txt", "1\n")], [("a.txt", "2\n"), ("c.txt", "3\n")]⟩).1) ∧
    generate_patch
        ⟨[("b.txt", "1\n")], [("a.txt", "2\n"), ("c.txt", "3\n")]⟩ =
      String.intercalate "\n" (patchLines
        ⟨[("b.txt", "1\n")], [("a.txt", "2\n"), ("c.txt", "3\n")]⟩) := by
  have h := generate_patch_structure
    ⟨[("b.txt", "1\n")], [("a.txt", "2\n"), ("c.txt", "3\n")]⟩
  exact ⟨h.2.2.2.1, h.2.2.2.2.2.2.2⟩

/-- C3 counterexample: the deleted file `a.txt` with content `"x \n"`
renders as the content line `"-x"` — the trailing space is stripped along
with the terminator (the code calls `rstrip()`), so the block is not the
claimed terminator-only-stripped rendering ending in `"-x "`. -/
theorem deleted_block_strips_trailing_space :
    deletedBlock [("a.txt", "x \n")] "a.txt" =
      ["--- a/a.txt", "+++ /dev/null", "-x", ""] ∧
    deletedBlock [("a.txt", "x \n")] "a.txt" ≠
      ["--- a/a.txt", "+++ /dev/null", "-x ", ""] :=
  ⟨by decide, by decide⟩

/-- C3 amended: a deleted path renders as `--- a/<path>`,
`+++ /dev/null` and every line of the before content prefixed with `-`
after stripping its maximal trailing run of whitespace characters
(line terminator, spaces, tabs and the other Python whitespace
characters — not only the terminator); symmetrically an added path
renders as `--- /dev/null`, `+++ b/<path>` and `+`-prefixed
whitespace-rstripped lines of the after content. -/
theorem whole_file_blocks_rstrip (initial_files current_files : PyDict)
    (p : String) :
    deletedBlock initial_files p =
      ("--- a/" ++ p) :: "+++ /dev/null" ::
        ((splitlinesKeepends ((dget initial_files p).getD "")).map
          (fun line => "-" ++ rstrip line) ++ [""]) ∧
    addedBlock current_files p =
      "--- /dev/null" :: ("+++ b/" ++ p) ::
        ((splitlinesKeepends ((dget current_files p).getD "")).map
          (fun line => "+" ++ rstrip line) ++ [""]) ∧
    (∀ line : String, ∃ t : List Char,
      line.data = (rstrip line).data ++ t ∧ ∀ ch ∈ t, pyIsSpace ch) := by
  refine ⟨rfl, rfl, fun line => ?_⟩
  refine ⟨(line.data.reverse.takeWhile pyIsSpace).reverse, ?_, ?_⟩
  · rw [rstrip]
    conv_lhs => rw [← line.data.reverse_reverse,
      ← List.takeWhile_append_dropWhile (p := pyIsSpace)
        (l := line.data.reverse)]
    rw [List.reverse_append]
  · intro ch hch
    rw [List.mem_reverse] at hch
    exact List.mem_takeWhile_imp hch

/-- C3 amended witness: the stripped suffix of `"x \n"` is whitespace. -/
theorem whole_file_blocks_rstrip_example :
    deletedBlock [("f", "x \n")] "f" =
      ("--- a/" ++ "f") :: "+++ /dev/null" ::
        ((splitlinesKeepends ((dget [("f", "x \n")] "f").getD "")).map
          (fun line => "-" ++ rstrip line) ++ [""]) ∧
    (∃ t : List Char, ("x \n" : String).data =
      (rstrip "x \n").data ++ t ∧ ∀ ch ∈ t, pyIsSpace ch) :=
  ⟨(whole_file_blocks_rstrip [("f", "x \n")] [] "f").1,
    (whole_file_blocks_rstrip [("f", "x \n")] [] "f").2.2 "x \n"⟩

end MorphServer
